import Mathlib

/-!
# Verification of the WP GitHub Release API worker

Shallow embedding of the Cloudflare worker in `index.js` and `src/kv.js`:
a resolution-and-caching pipeline for WordPress plugin/theme release
metadata and artifacts.  External stores (edge response cache, KV metadata
cache, R2 blob store) are modelled as association lists inside a `World`
value, outbound HTTP as an oracle `fetchResp : String → OriginResp`, and
every store/network access is recorded in an event trace so that claims
about "no origin call / no cache access" can be stated precisely.
-/

namespace WpRelApi

/-- JavaScript truthiness of a possibly-undefined string
(`undefined` and the empty string are falsy). -/
def jsTruthy : Option String → Bool
  | none => false
  | some s => s ≠ ""

/-- Template-literal interpolation of a possibly-undefined string:
JavaScript renders `undefined` as the text "undefined". -/
def jsStr : Option String → String
  | none => "undefined"
  | some s => s

/-- First-match association-list lookup, mirroring how the worker's
external key-value stores behave (a later `put` shadows an older entry). -/
def lookupStr {α : Type} : List (String × α) → String → Option α
  | [], _ => none
  | (k, v) :: rest, key => if k = key then some v else lookupStr rest key

/-- A release asset, as read from the origin's JSON. -/
structure Asset where
  browser_download_url : String
deriving DecidableEq, Repr

/-- A release record, as read from the origin's JSON
(`tag_name`, `published_at`, `draft`, `prerelease`, `assets`). -/
structure Release where
  tag_name : String
  published_at : String
  draft : Bool
  prerelease : Bool
  assets : List Asset
deriving DecidableEq, Repr

instance : Inhabited Release := ⟨⟨"", "", false, false, []⟩⟩

/-! ## Request parsing (`getDataFromRequest`) -/

/-- A parsed request URL: the full href (used as the edge-cache key), the
pathname, and the two query parameters the worker reads.  `some ""` models
an explicitly empty parameter, `none` an absent one (JS `null`). -/
structure ReqUrl where
  href : String
  pathname : String
  slugParam : Option String
  fileParam : Option String
deriving DecidableEq, Repr

/-- Prefix test on character lists (kernel-reducible `startsWith`). -/
def strStarts (pre s : String) : Bool :=
  pre.data.isPrefixOf s.data

/-- Drop the first `n` characters of a string (kernel-reducible). -/
def strDrop (s : String) (n : Nat) : String :=
  ⟨s.data.drop n⟩

/-- The regex replace removing an optional leading slash and `workers`. -/
def stripWorkers (s : String) : String :=
  if strStarts "/workers" s then strDrop s 8
  else if strStarts "workers" s then strDrop s 7
  else s

/-- The regex replace removing `release-api` or `release-api-staging`. -/
def stripReleaseApi (s : String) : String :=
  if strStarts "/release-api-staging" s then strDrop s 20
  else if strStarts "/release-api" s then strDrop s 12
  else if strStarts "release-api-staging" s then strDrop s 19
  else if strStarts "release-api" s then strDrop s 11
  else s

/-- The regex replace trimming all leading slashes. -/
def trimSlashes (s : String) : String :=
  ⟨s.data.dropWhile (· = '/')⟩

/-- Split a character list at a separator character, mirroring JS
`String.prototype.split` with a one-character separator. -/
def splitChar (c : Char) : List Char → List (List Char)
  | [] => [[]]
  | x :: rest =>
    let r := splitChar c rest
    if x = c then [] :: r
    else
      match r with
      | [] => [[x]]
      | h :: t => (x :: h) :: t

/-- JS `path.split('/')` as a list of strings. -/
def splitSlash (s : String) : List String :=
  (splitChar '/' s.data).map (fun cs => (⟨cs⟩ : String))

/-- The request data extracted by `getDataFromRequest` in `index.js`.
`latestRelease`, `release` and `fileHeaders` are filled in by the pipeline
(the JS code mutates the same object). -/
structure RequestData where
  basename : String
  file : String
  isDownload : Bool
  package : Option String
  slug : Option String
  type : Option String
  vendor : Option String
  version : Option String
  latestRelease : Option Release := none
  release : Option Release := none
  fileHeaders : List (String × String) := []
deriving DecidableEq, Repr

/-- Default main file: `style.css` for themes, `{package}.php` otherwise. -/
def defaultFile (type pkg : Option String) : String :=
  if type = some "theme" then "style.css" else jsStr pkg ++ ".php"

/-- Embedding of `getDataFromRequest`: strip the `/workers` and
`/release-api(-staging)` prefixes, split the path into nonempty segments,
shift off type/vendor/package, detect a `download` segment (popping the
last segment when present), shift off the version, and resolve the slug
and file from query parameters with defaults. -/
def getDataFromRequest (url : ReqUrl) : RequestData :=
  let cleanPath := trimSlashes (stripReleaseApi (stripWorkers url.pathname))
  let segments0 := (splitSlash cleanPath).filter (fun s => s ≠ "")
  let type0 := segments0.head?
  let segments1 := segments0.tail
  let type1 : Option String :=
    match type0 with
    | none => none
    | some t =>
      if t = "plugin" ∨ t = "plugins" then some "plugin"
      else if t = "theme" ∨ t = "themes" then some "theme"
      else some t
  let vendor := segments1.head?
  let segments2 := segments1.tail
  let pkg := segments2.head?
  let segments3 := segments2.tail
  let isDownload := segments3.contains "download"
  let segments4 := if isDownload then segments3.dropLast else segments3
  let version := segments4.head?
  let slug : Option String :=
    match url.slugParam with
    | some s => if s ≠ "" then some s else pkg
    | none => pkg
  let file : String :=
    match url.fileParam with
    | some s => if s ≠ "" then s else defaultFile type1 pkg
    | none => defaultFile type1 pkg
  { basename := jsStr slug ++ "/" ++ file
    file := file
    isDownload := isDownload
    package := pkg
    slug := slug
    type := type1
    vendor := vendor
    version := version }

/-! ## Origin responses and release selection -/

/-- An outbound HTTP response as the worker observes it: the status, the
raw body text (used for error proxying and for the fetched source file),
and the body's JSON reading as a release array or a single release object
(`none` when the body does not parse to that shape). -/
structure OriginResp where
  status : Nat
  raw : String
  releasesArr : Option (List Release) := none
  releaseObj : Option Release := none

/-- Lexicographic strict comparison of character lists: the JS `<` / `>`
operators on the `published_at` strings.  (Executable counterpart of the
`List.lt` order; see `ltChars_iff`.) -/
def ltChars : List Char → List Char → Bool
  | [], [] => false
  | [], _ :: _ => true
  | _ :: _, [] => false
  | a :: as, b :: bs =>
    if a < b then true
    else if b < a then false
    else ltChars as bs

/-- JS string `<` as an executable Bool. -/
def strLtB (a b : String) : Bool := ltChars a.data b.data

/-- Stable descending insertion by `published_at`, placing an element
before the first stored element that is not strictly more recent.  This is
the unique stable descending ordering, hence the observable result of the
`releases.sort(...)` comparator in `index.js` (JS string `>`/`<` on
`published_at`, stable sort). -/
def insertRel (r : Release) : List Release → List Release
  | [] => [r]
  | x :: xs =>
    if strLtB r.published_at x.published_at then x :: insertRel r xs
    else r :: x :: xs

/-- The `releases.sort(...)` call, descending by publish date. -/
def sortReleases (rs : List Release) : List Release :=
  rs.foldr insertRel []

/-- The filter applied in the `for (release of releases)` loop: skip
drafts, then prereleases, then releases without assets. -/
def viableRelease (r : Release) : Bool :=
  !r.draft && !r.prerelease && !r.assets.isEmpty

/-- Embedding of `getLatestReleaseDetailJsonFromGitHub` as a pure function
of the origin's response to the releases-list request: proxy a non-200
status as an error carrying the body; fail when the body is not a
nonempty array; otherwise sort by publish date descending, keep viable
releases, and return the first one (failing when none survives). -/
def getLatestReleaseDetailJsonFromGitHub (resp : OriginResp) : Except String Release :=
  if resp.status ≠ 200 then .error resp.raw
  else
    match resp.releasesArr with
    | none => .error "No releases available!"
    | some rs =>
      if rs.isEmpty then .error "No releases available!"
      else
        match (sortReleases rs).filter (fun r => viableRelease r) with
        | [] => .error "No valid releases available!"
        | r :: _ => .ok r

/-- Embedding of `getRelease` as a pure function of the origin's response
to the tagged-release request: proxy a non-200 status as an error carrying
the body; reject a release without assets; otherwise return the release.
Draft and prerelease flags are not consulted.  (A 200 body that is not a
release object would fail member access in JS; the pipeline's callers only
pass responses whose body parses, so that case is left to the oracle.) -/
def getRelease (resp : OriginResp) (version : String) : Except String Release :=
  if resp.status ≠ 200 then .error resp.raw
  else
    match resp.releaseObj with
    | none => .error "invalid JSON"
    | some r =>
      if r.assets.length = 0 then
        .error ("Release " ++ version ++ " doesn't have a release asset!")
      else .ok r

/-! ## File headers (`getFileHeaders`) -/

/-- The characters after the first occurrence of `pat` in `cs`, when any
(the `regex.exec` leftmost match). -/
def afterFirst (pat : List Char) : List Char → Option (List Char)
  | [] => none
  | c :: rest =>
    if pat.isPrefixOf (c :: rest) then some ((c :: rest).drop pat.length)
    else afterFirst pat rest

/-- JS `String.prototype.trim` (whitespace from both ends). -/
def trimChars (cs : List Char) : List Char :=
  ((cs.dropWhile Char.isWhitespace).reverse.dropWhile Char.isWhitespace).reverse

/-- The value captured for one header name by the regex
`new RegExp(header + ':(.*)', 'gm')`: on the first line containing
`header:`, the rest of the line after the first occurrence, trimmed. -/
def findHeader (name : String) (contents : String) : Option String :=
  (((splitChar '\n' contents.data).filterMap
      (afterFirst (name.data ++ [':']))).head?).map
    (fun cs => (⟨trimChars cs⟩ : String))

/-- The fixed list of header names scanned by `getFileHeaders`. -/
def headerNames : List String :=
  ["Author", "Author URI", "Description", "Domain Path", "License",
   "License URI", "Plugin Name", "Plugin URI", "Requires at least",
   "Requires PHP", "Tested up to", "Text Domain", "Theme Name",
   "Theme URI", "Version"]

/-- Embedding of `getFileHeaders`: a key is present exactly when its
pattern matched somewhere in the file contents. -/
def getFileHeaders (fileContents : String) : List (String × String) :=
  headerNames.filterMap
    (fun h => (findHeader h fileContents).map (fun v => (h, v)))

/-! ## Responses and the payload -/

/-- A JSON value, restricted to the shapes the worker ever serializes.
`JSON.stringify(payload, null, 2)` is a deterministic injective encoding,
so response bodies are modelled by the value itself; a property whose
value is `undefined` is simply absent from the field list. -/
inductive JsonVal where
  | str (s : String)
  | obj (fields : List (String × JsonVal))

/-- Body of a worker `Response`. -/
inductive RespBody where
  | json (v : JsonVal)
  | zip (bytes : String)
  | empty

/-- A worker `Response`. -/
structure HttpResp where
  status : Nat
  statusText : String
  headers : List (String × String)
  body : RespBody
  redirectTo : Option String := none

/-- Embedding of `getStatusText`. -/
def getStatusText (code : Nat) : String :=
  if code = 400 then "Bad Request"
  else if code = 404 then "Not Found"
  else "OK"

/-- Embedding of `getResponse`: serialize the payload as JSON with the given status. -/
def getResponse (payload : JsonVal) (status : Nat := 200) : HttpResp :=
  { status := status
    statusText := getStatusText status
    headers := [("Content-Type", "application/json")]
    body := .json payload }

/-- Embedding of `getErrorResponse`: a `status: error` document with the given code. -/
def getErrorResponse (message : String) (statusCode : Nat := 400) : HttpResp :=
  getResponse (.obj [("status", .str "error"), ("message", .str message)]) statusCode

/-- The `Response.redirect(url, 302)` response. -/
def redirectResponse (url : String) : HttpResp :=
  { status := 302, statusText := "", headers := [("Location", url)],
    body := .empty, redirectTo := some url }

/-- The payload assembled by `getPayload`; `Option` fields are properties
that JS leaves `undefined` when the corresponding header is missing, and
that `JSON.stringify` therefore omits. -/
structure Payload where
  name : Option String
  type : String
  versionCurrent : Option String
  versionLatest : String
  description : String
  authorName : String
  authorUrl : String
  updated : String
  requiresWp : String
  requiresPhp : String
  testedWp : String
  url : String
  download : String
  slug : String
  basename : Option String
deriving DecidableEq, Repr

/-- Embedding of `getPayload`.  `name` and `version.current` are read from
the file headers with no `|| ''` default; `description`, `author.*`,
`requires.*`, `tested.wp` and `url` default to the empty string.  The
pipeline always sets `latestRelease`/`release` and only resolves releases
with at least one asset before calling this, so the `getD` defaults for
those fields are never exercised on pipeline inputs. -/
def getPayload (data : RequestData) : Payload :=
  let fh := data.fileHeaders
  let latest := data.latestRelease.getD default
  let release := data.release.getD default
  { name :=
      if data.type = some "theme" then lookupStr fh "Theme Name"
      else lookupStr fh "Plugin Name"
    type := jsStr data.type
    versionCurrent := lookupStr fh "Version"
    versionLatest := latest.tag_name
    description := (lookupStr fh "Description").getD ""
    authorName := (lookupStr fh "Author").getD ""
    authorUrl := (lookupStr fh "Author URI").getD ""
    updated := release.published_at
    requiresWp := (lookupStr fh "Requires at least").getD ""
    requiresPhp := (lookupStr fh "Requires PHP").getD ""
    testedWp := (lookupStr fh "Tested up to").getD ""
    url :=
      ((if data.type = some "theme" then lookupStr fh "Theme URI"
        else lookupStr fh "Plugin URI")).getD ""
    download := ((release.assets.head?).getD ⟨""⟩).browser_download_url
    slug := jsStr data.slug
    basename := if data.type = some "plugin" then some data.basename else none }

/-- Serialization (`JSON.stringify`) of the payload object: properties in insertion order,
skipping properties whose value is `undefined` (`name`, `version.current`,
and `basename` for themes). -/
def payloadJson (p : Payload) : JsonVal :=
  .obj
    ((match p.name with
      | some n => [("name", JsonVal.str n)]
      | none => []) ++
     [("type", .str p.type),
      ("version", .obj
        ((match p.versionCurrent with
          | some v => [("current", JsonVal.str v)]
          | none => []) ++
         [("latest", .str p.versionLatest)])),
      ("description", .str p.description),
      ("author", .obj [("name", .str p.authorName), ("url", .str p.authorUrl)]),
      ("updated", .str p.updated),
      ("requires", .obj [("wp", .str p.requiresWp), ("php", .str p.requiresPhp)]),
      ("tested", .obj [("wp", .str p.testedWp)]),
      ("url", .str p.url),
      ("download", .str p.download),
      ("slug", .str p.slug)] ++
     (match p.basename with
      | some b => [("basename", JsonVal.str b)]
      | none => []))

/-- The top-level keys of a JSON object. -/
def objKeys : JsonVal → List String
  | .obj fs => fs.map (fun f => f.1)
  | .str _ => []

/-- The value of a field of a JSON object. -/
def jsonField (v : JsonVal) (k : String) : Option JsonVal :=
  match v with
  | .obj fs => lookupStr fs k
  | .str _ => none

/-! ## The worker's world: cache tiers, origin oracle, event trace -/

/-- The three external stores: the edge response cache (`caches`), the KV
metadata cache, and the R2 blob bucket (key → artifact bytes). -/
structure World where
  edge : List (String × HttpResp)
  kv : List (String × RequestData)
  r2 : List (String × String)

/-- The environment: the response every outbound `fetch` would produce for
a given URL, plus fault injection for the store operations (`none`/`false`
means the operation succeeds; `some msg` means it throws `msg`). -/
structure Env where
  fetchResp : String → OriginResp
  r2GetError : Option String := none
  r2PutError : Option String := none
  kvPutError : Option String := none
  edgePutError : Bool := false

/-- One observable access: edge-cache read/write, KV read/write, R2
read/write (plus list/delete, which the code never performs), and an
outbound network fetch. -/
inductive Event where
  | edgeMatch (key : String)
  | edgePut (key : String)
  | kvGet (key : String)
  | kvPut (key : String)
  | r2Get (key : String)
  | r2Put (key : String)
  | r2List (pkg : String)
  | r2Delete (key : String)
  | fetch (url : String)
deriving DecidableEq, Repr

/-- Embedding of `getFullR2Key`: the key `{version}-{package}.zip`. -/
def getFullR2Key (data : RequestData) (version : String) : String :=
  version ++ "-" ++ jsStr data.package ++ ".zip"

/-- The `Response` built from a found R2 object. -/
def zipResponse (data : RequestData) (bytes : String) : HttpResp :=
  { status := 200, statusText := "",
    headers :=
      [("Content-Type", "application/zip"),
       ("Content-Disposition",
        "attachment; filename=\x22" ++ jsStr data.slug ++ ".zip\x22")],
    body := .zip bytes }

/-- Embedding of `fetchSavedFromR2`: read the exact key
`"{version}-{package}.zip"`; a hit yields a zip response, a miss `none`; a
failing bucket read is re-thrown as `Error fetching from R2 ...`.  The
world is never modified. -/
def fetchSavedFromR2 (env : Env) (data : RequestData) (version : String) (w : World) :
    Except String (Option HttpResp) × World × List Event :=
  let r2Key := getFullR2Key data version
  match env.r2GetError with
  | some m => (.error ("Error fetching from R2 " ++ m), w, [.r2Get r2Key])
  | none =>
    match lookupStr w.r2 r2Key with
    | some bytes => (.ok (some (zipResponse data bytes)), w, [.r2Get r2Key])
    | none => (.ok none, w, [.r2Get r2Key])

/-- Embedding of `saveToR2`: skip when the key already exists, fetch the
artifact, skip on a non-200 download, store the bytes.  The entire body is
wrapped in `try/catch`, so this never throws. -/
def saveToR2 (env : Env) (data : RequestData) (version : String)
    (downloadUrl : String) (w : World) : World × List Event :=
  let r2Key := getFullR2Key data version
  match fetchSavedFromR2 env data version w with
  | (.error _, w1, t1) => (w1, t1)
  | (.ok (some _), w1, t1) => (w1, t1)
  | (.ok none, w1, t1) =>
    let resp := env.fetchResp downloadUrl
    let t2 := t1 ++ [.fetch downloadUrl]
    if resp.status ≠ 200 then (w1, t2)
    else
      match env.r2PutError with
      | some _ => (w1, t2 ++ [.r2Put r2Key])
      | none =>
        ({ w1 with r2 := (r2Key, resp.raw) :: w1.r2 }, t2 ++ [.r2Put r2Key])

/-! ## The resolution pipeline (`handleRequest`) -/

/-- The releases-list endpoint for a request. -/
def releasesListUrl (data : RequestData) : String :=
  "https://api.github.com/repos/" ++ jsStr data.vendor ++ "/" ++
    jsStr data.package ++ "/releases"

/-- The tagged-release endpoint for a request. -/
def releaseTagUrl (data : RequestData) (version : String) : String :=
  releasesListUrl data ++ "/tags/" ++ version

/-- The raw-content URL of the main source file at a release's tag. -/
def rawFileUrl (data : RequestData) (release : Release) : String :=
  "https://raw.githubusercontent.com/" ++ jsStr data.vendor ++ "/" ++
    jsStr data.package ++ "/" ++ release.tag_name ++ "/" ++ data.file

/-- The `try { ... } catch (e) { return 404 }` block of `handleRequest`:
fetch the latest release, and additionally the explicitly tagged release
when a version was requested.  Returns the pair
`(latestRelease, release)` or the first error, together with the network
events performed. -/
def resolveReleases (env : Env) (data : RequestData) :
    Except String (Release × Release) × List Event :=
  let listUrl := releasesListUrl data
  match getLatestReleaseDetailJsonFromGitHub (env.fetchResp listUrl) with
  | .error e => (.error e, [.fetch listUrl])
  | .ok latest =>
    if jsTruthy data.version then
      let v := jsStr data.version
      let tagUrl := releaseTagUrl data v
      match getRelease (env.fetchResp tagUrl) v with
      | .error e => (.error e, [.fetch listUrl, .fetch tagUrl])
      | .ok r => (.ok (latest, r), [.fetch listUrl, .fetch tagUrl])
    else (.ok (latest, latest), [.fetch listUrl])

/-- Lines 110-131 of `index.js`: on a download request, best-effort save
the artifact under the *latest* release's tag, re-fetch it from R2 and
serve it (caching the zip response at the edge); any failure inside the
`try` degrades to a 302 redirect to the asset URL. -/
def deliverDownload (env : Env) (data : RequestData) (cacheKey : String)
    (latestRelease : Release) (payload : Payload) (w : World) :
    Except String HttpResp × World × List Event :=
  let version := latestRelease.tag_name
  let sv := saveToR2 env data version payload.download w
  match fetchSavedFromR2 env data latestRelease.tag_name sv.1 with
  | (.error _, w2, tb) => (.ok (redirectResponse payload.download), w2, sv.2 ++ tb)
  | (.ok none, w2, tb) => (.ok (redirectResponse payload.download), w2, sv.2 ++ tb)
  | (.ok (some rr), w2, tb) =>
    if env.edgePutError then
      (.ok (redirectResponse payload.download), w2, sv.2 ++ tb ++ [.edgePut cacheKey])
    else
      (.ok rr, { w2 with edge := (cacheKey, rr) :: w2.edge },
       sv.2 ++ tb ++ [.edgePut cacheKey])

/-- Lines 81-144 of `index.js`, after validation and the KV fast path:
origin resolution (404 on failure), source-file fetch (404 on non-200),
payload construction, the awaited-and-unguarded KV write, then the
download or JSON delivery branch. -/
def resolveAndDeliver (env : Env) (url : ReqUrl) (data : RequestData)
    (cacheKey : String) (w : World) :
    Except String HttpResp × World × List Event :=
  match resolveReleases env data with
  | (.error e, t) => (.ok (getErrorResponse e 404), w, t)
  | (.ok (latestRelease, release), t) =>
    let filePath := rawFileUrl data release
    let t2 := t ++ [.fetch filePath]
    let fileResp := env.fetchResp filePath
    if fileResp.status ≠ 200 then
      (.ok (getResponse
              (.str ("Unable to fetch " ++ jsStr data.type ++ " file: " ++ filePath))
              404),
       w, t2)
    else
      let data1 := { data with
        latestRelease := some latestRelease
        release := some release
        fileHeaders := getFileHeaders fileResp.raw }
      let payload := getPayload data1
      let t3 := t2 ++ [.kvPut url.pathname]
      match env.kvPutError with
      | some m => (.error m, w, t3)
      | none =>
        let w3 := { w with kv := (url.pathname, data1) :: w.kv }
        if data1.isDownload then
          let dd := deliverDownload env data1 cacheKey latestRelease payload w3
          (dd.1, dd.2.1, t3 ++ dd.2.2)
        else
          let resp0 := getResponse (payloadJson payload) 200
          let resp := { resp0 with
            headers := resp0.headers ++ [("Cache-Control", "s-maxage=3600")] }
          if env.edgePutError then
            (.error "edge cache put failed", w3, t3 ++ [.edgePut cacheKey])
          else
            (.ok resp, { w3 with edge := (cacheKey, resp) :: w3.edge },
             t3 ++ [.edgePut cacheKey])

/-- The KV fast-path condition of line 66: cached data present, a download
request, and a cached latest release with a truthy `tag_name`; yields that
tag. -/
def fastPathTag (data : RequestData) (cachedData : Option RequestData) : Option String :=
  match cachedData with
  | none => none
  | some cd =>
    if data.isDownload then
      match cd.latestRelease with
      | some lr => if lr.tag_name ≠ "" then some lr.tag_name else none
      | none => none
    else none

/-- The 400 message for a missing or invalid entity type. -/
def typeErrorMsg : String :=
  "The first URL path segment is missing a valid entity type. Must be either 'plugins' or 'themes'."

/-- The 400 message for a missing vendor. -/
def vendorErrorMsg : String :=
  "The second URL path segment is missing. It should contain the vendor name."

/-- The 400 message for a missing package. -/
def packageErrorMsg : String :=
  "The third URL path segment is missing. It should contain the package name."

/-- Embedding of `handleRequest`: edge-cache lookup, request validation,
unconditional KV read, download fast path from R2, then resolution and
delivery.  The result is `.error msg` when the underlying JS handler
would reject with an uncaught exception. -/
def handleRequest (env : Env) (url : ReqUrl) (w : World) :
    Except String HttpResp × World × List Event :=
  let cacheKey := url.href
  let t0 := [Event.edgeMatch cacheKey]
  match lookupStr w.edge cacheKey with
  | some response => (.ok response, w, t0)
  | none =>
    let data := getDataFromRequest url
    if data.type ≠ some "theme" ∧ data.type ≠ some "plugin" then
      (.ok (getErrorResponse typeErrorMsg), w, t0)
    else if ¬ jsTruthy data.vendor then
      (.ok (getErrorResponse vendorErrorMsg), w, t0)
    else if ¬ jsTruthy data.package then
      (.ok (getErrorResponse packageErrorMsg), w, t0)
    else
      let t1 := t0 ++ [Event.kvGet url.pathname]
      let cachedData := lookupStr w.kv url.pathname
      match fastPathTag data cachedData with
      | some version =>
        (match fetchSavedFromR2 env data version w with
         | (.error e, w2, t2) => (.error e, w2, t1 ++ t2)
         | (.ok (some rr), w2, t2) =>
           if env.edgePutError then
             (.error "edge cache put failed", w2, t1 ++ t2 ++ [.edgePut cacheKey])
           else
             (.ok rr, { w2 with edge := (cacheKey, rr) :: w2.edge },
              t1 ++ t2 ++ [.edgePut cacheKey])
         | (.ok none, w2, t2) =>
           let rd := resolveAndDeliver env url data cacheKey w2
           (rd.1, rd.2.1, t1 ++ t2 ++ rd.2.2))
      | none =>
        let rd := resolveAndDeliver env url data cacheKey w
        (rd.1, rd.2.1, t1 ++ rd.2.2)

/-! ## Derived predicates used in claim statements -/

/-- Whether `needle` occurs as a substring of `hay`. -/
def mentionsText (needle hay : String) : Bool :=
  (afterFirst needle.data hay.data).isSome

/-- A request descriptor that passes the three validation checks of
`handleRequest`. -/
def ValidDescriptor (data : RequestData) : Prop :=
  (data.type = some "plugin" ∨ data.type = some "theme") ∧
  jsTruthy data.vendor = true ∧ jsTruthy data.package = true

/-- The header the payload's `name` is read from (`Theme Name` for
themes, `Plugin Name` otherwise). -/
def nameHeaderOf (data : RequestData) : Option String :=
  if data.type = some "theme" then lookupStr data.fileHeaders "Theme Name"
  else lookupStr data.fileHeaders "Plugin Name"

/-- The header the payload's `url` is read from. -/
def urlHeaderOf (data : RequestData) : Option String :=
  if data.type = some "theme" then lookupStr data.fileHeaders "Theme URI"
  else lookupStr data.fileHeaders "Plugin URI"

/-- Recognize a blob-store write event. -/
def isR2Put : Event → Bool
  | .r2Put _ => true
  | _ => false

/-- Recognize a blob-store read event. -/
def isR2Get : Event → Bool
  | .r2Get _ => true
  | _ => false

/-! ## Concrete fixtures (inputs for witnesses and counterexamples) -/

/-- Asset of the 1.0.0 release. -/
def asset1 : Asset := ⟨"https://gh/dl/1.0.0/widget.zip"⟩

/-- Asset of the 2.0.0 release. -/
def asset2 : Asset := ⟨"https://gh/dl/2.0.0/widget.zip"⟩

/-- An older published release with one asset. -/
def rel1 : Release := ⟨"1.0.0", "2024-01-01", false, false, [asset1]⟩

/-- The most recent published release with one asset. -/
def rel2 : Release := ⟨"2.0.0", "2024-02-01", false, false, [asset2]⟩

/-- Main plugin file contents served by the test origin. -/
def pluginFile : String :=
  "/*\nPlugin Name: Widget\nVersion: 1.9\nAuthor: Ann\n*/\n"

/-- A test origin: a repository `acme/widget` with releases 1.0.0 and
2.0.0, raw file contents at both tags, and downloadable assets. -/
def testFetch : String → OriginResp := fun u =>
  if u = "https://api.github.com/repos/acme/widget/releases" then
    { status := 200, raw := "[...]", releasesArr := some [rel1, rel2] }
  else if u = "https://api.github.com/repos/acme/widget/releases/tags/1.0.0" then
    { status := 200, raw := "{...}", releaseObj := some rel1 }
  else if u = "https://raw.githubusercontent.com/acme/widget/2.0.0/widget.php" then
    { status := 200, raw := pluginFile }
  else if u = "https://raw.githubusercontent.com/acme/widget/1.0.0/widget.php" then
    { status := 200, raw := pluginFile }
  else if u = "https://gh/dl/1.0.0/widget.zip" then
    { status := 200, raw := "ZIPBYTES1" }
  else if u = "https://gh/dl/2.0.0/widget.zip" then
    { status := 200, raw := "ZIPBYTES2" }
  else { status := 404, raw := "Not Found" }

/-- The healthy test environment. -/
def env0 : Env := { fetchResp := testFetch }

/-- The empty world: all three cache tiers empty. -/
def w0 : World := ⟨[], [], []⟩

/-- A metadata request for the latest version. -/
def metaUrl : ReqUrl :=
  ⟨"https://h/plugins/acme/widget", "/plugins/acme/widget", none, none⟩

/-- A download request for the explicit version 1.0.0. -/
def dlUrl : ReqUrl :=
  ⟨"https://h/plugins/acme/widget/1.0.0/download",
   "/plugins/acme/widget/1.0.0/download", none, none⟩

/-- A version-less download request. -/
def dlLatestUrl : ReqUrl :=
  ⟨"https://h/plugins/acme/widget/download",
   "/plugins/acme/widget/download", none, none⟩

/-- A request whose first path segment is not a valid entity type. -/
def badUrl : ReqUrl := ⟨"https://h/widgets/acme/w", "/widgets/acme/w", none, none⟩

/-- A previously stored edge-cache response. -/
def cachedResp : HttpResp := getResponse (.str "cached") 200

/-- A world whose edge cache already holds a response for `metaUrl`. -/
def wEdge : World := ⟨[(metaUrl.href, cachedResp)], [], []⟩

/-- An environment whose KV `put` throws. -/
def envKvFail : Env := { env0 with kvPutError := some "KV put failed" }

/-- An environment whose origin is down (HTTP 500 on the releases list). -/
def envOriginFail : Env :=
  { fetchResp := fun u =>
      if u = "https://api.github.com/repos/acme/widget/releases" then
        { status := 500, raw := "upstream exploded" }
      else testFetch u }

/-- A world holding an old artifact for `widget` (any version). -/
def wC2 : World := ⟨[], [], [("1.0.0-widget.zip", "OLDBYTES")]⟩

/-- Latest release of the package `x` used in the retention scenario. -/
def relX6 : Release := ⟨"v6", "2024-06-01", false, false, [⟨"https://gh/dl/v6/x.zip"⟩]⟩

/-- A version-less download request for package `x`. -/
def dlxUrl : ReqUrl :=
  ⟨"https://h/plugins/acme/x/download", "/plugins/acme/x/download", none, none⟩

/-- The KV metadata document cached for `dlxUrl`. -/
def kvDocX : RequestData := { getDataFromRequest dlxUrl with latestRelease := some relX6 }

/-- A world whose blob store holds six artifacts `v6-x.zip` … `v1-x.zip`
(descending), with cached metadata naming `v6` as the latest tag. -/
def w6 : World :=
  ⟨[], [(dlxUrl.pathname, kvDocX)],
   [("v6-x.zip", "B6"), ("v5-x.zip", "B5"), ("v4-x.zip", "B4"),
    ("v3-x.zip", "B3"), ("v2-x.zip", "B2"), ("v1-x.zip", "B1")]⟩

/-- The draft release of the spec's selection example. -/
def relDraft : Release := ⟨"2.0", "2024-04-04", true, false, [⟨"u20"⟩]⟩

/-- The prerelease of the spec's selection example. -/
def relPre : Release := ⟨"1.9", "2024-03-03", false, true, [⟨"u19"⟩]⟩

/-- The asset-less release of the spec's selection example. -/
def relNoAsset : Release := ⟨"1.8", "2024-02-02", false, false, []⟩

/-- The viable release of the spec's selection example. -/
def relOk : Release := ⟨"1.7", "2024-01-01", false, false, [⟨"u17"⟩]⟩

/-- The releases-list response of the spec's selection example. -/
def exampleListResp : OriginResp :=
  { status := 200, raw := "[...]",
    releasesArr := some [relDraft, relPre, relNoAsset, relOk] }

/-- A draft release carrying an asset, fetched by explicit tag. -/
def draftWithAsset : Release := ⟨"3.0", "2024-05-05", true, false, [⟨"u30"⟩]⟩

/-- The tagged-release response returning `draftWithAsset`. -/
def draftTagResp : OriginResp :=
  { status := 200, raw := "{...}", releaseObj := some draftWithAsset }

/-! # Helper lemmas -/

/-- Sanity check of request parsing: a prefixed explicit-version download
request for a plugin. -/
theorem getDataFromRequest_download_example :
    getDataFromRequest ⟨"https://h/x", "/workers/release-api/plugins/acme/widget/1.0.0/download", none, none⟩ =
    { basename := "widget/widget.php", file := "widget.php", isDownload := true,
      package := some "widget", slug := some "widget", type := some "plugin",
      vendor := some "acme", version := some "1.0.0" } := by
  decide

/-- Sanity check of request parsing: a bare theme metadata request. -/
theorem getDataFromRequest_theme_example :
    getDataFromRequest ⟨"https://h/y", "/themes/acme/dark", none, none⟩ =
    { basename := "dark/style.css", file := "style.css", isDownload := false,
      package := some "dark", slug := some "dark", type := some "theme",
      vendor := some "acme", version := none } := by
  decide

/-- Sanity check of header extraction: first match, trimmed. -/
theorem findHeader_example :
    findHeader "Plugin Name" " * Plugin Name:  Widget \n * Version: 1.2\n" =
      some "Widget" := by
  decide

/-- Reading the blob store (`fetchSavedFromR2`) never modifies any store. -/
theorem fetchSavedFromR2_world_eq (env : Env) (data : RequestData)
    (version : String) (w : World) :
    (fetchSavedFromR2 env data version w).2.1 = w := by
  unfold fetchSavedFromR2
  split
  · rfl
  · dsimp only
    split <;> rfl

/-- The KV fast path is never taken by a non-download request. -/
theorem fastPathTag_none_of_not_download (data : RequestData)
    (cd : Option RequestData) (h : data.isDownload = false) :
    fastPathTag data cd = none := by
  unfold fastPathTag
  cases cd with
  | none => rfl
  | some x => simp [h]

/-- For a non-download request, the result and the trace of the
resolve-and-deliver stage do not depend on the state of the stores:
that stage only reads from the network (the blob store is read only on
the download path). -/
theorem resolveAndDeliver_indep (env : Env) (url : ReqUrl) (data : RequestData)
    (cacheKey : String) (h : data.isDownload = false) (w w' : World) :
    (resolveAndDeliver env url data cacheKey w).1 =
      (resolveAndDeliver env url data cacheKey w').1 ∧
    (resolveAndDeliver env url data cacheKey w).2.2 =
      (resolveAndDeliver env url data cacheKey w').2.2 := by
  unfold resolveAndDeliver
  rcases hres : resolveReleases env data with ⟨res, evs⟩
  cases res with
  | error e => simp
  | ok pr =>
    rcases pr with ⟨lr, rel⟩
    dsimp only
    by_cases hf : (env.fetchResp (rawFileUrl data rel)).status ≠ 200
    · rw [if_pos hf, if_pos hf]
      simp
    · rw [if_neg hf, if_neg hf]
      cases env.kvPutError with
      | some m => simp
      | none =>
        dsimp only
        cases hep : env.edgePutError <;> simp [h]

/-- After an edge-cache miss, a validated non-download request proceeds
through the unconditional KV read straight to resolve-and-deliver. -/
theorem handleRequest_valid_nondownload (env : Env) (url : ReqUrl) (w : World)
    (hmiss : lookupStr w.edge url.href = none)
    (hval : ValidDescriptor (getDataFromRequest url))
    (hnd : (getDataFromRequest url).isDownload = false) :
    handleRequest env url w =
      ((resolveAndDeliver env url (getDataFromRequest url) url.href w).1,
       (resolveAndDeliver env url (getDataFromRequest url) url.href w).2.1,
       [Event.edgeMatch url.href, Event.kvGet url.pathname] ++
         (resolveAndDeliver env url (getDataFromRequest url) url.href w).2.2) := by
  obtain ⟨ht, hv, hp⟩ := hval
  have h1 : ¬ ((getDataFromRequest url).type ≠ some "theme" ∧
      (getDataFromRequest url).type ≠ some "plugin") := by
    rcases ht with h | h <;> simp [h]
  unfold handleRequest
  dsimp only
  rw [hmiss]
  dsimp only
  rw [if_neg h1, if_neg (by simp [hv]), if_neg (by simp [hp]),
    fastPathTag_none_of_not_download _ _ hnd]
  rcases he : resolveAndDeliver env url (getDataFromRequest url) url.href w with ⟨r, w3, t3⟩
  simp [he]

/-- Correctness of `ltChars` for the lexicographic order on character lists. -/
theorem ltChars_iff : ∀ as bs : List Char, ltChars as bs = true ↔ as < bs
  | [], [] => iff_of_false (by simp [ltChars]) (by intro h; cases h)
  | [], _ :: _ => iff_of_true rfl List.Lex.nil
  | _ :: _, [] => iff_of_false (by simp [ltChars]) (by intro h; cases h)
  | a :: as, b :: bs => by
    by_cases h1 : a < b
    · exact iff_of_true (by simp [ltChars, h1]) (List.Lex.rel h1)
    · by_cases h2 : b < a
      · refine iff_of_false (by simp [ltChars, h1, h2]) ?_
        intro h
        cases h with
        | cons _ => exact lt_irrefl a h2
        | rel h1' => exact h1 h1'
      · have hab : a = b := le_antisymm (le_of_not_lt h2) (le_of_not_lt h1)
        subst hab
        rw [show ltChars (a :: as) (a :: bs) = ltChars as bs by
          simp [ltChars, h1]]
        rw [ltChars_iff as bs]
        constructor
        · exact fun h => List.Lex.cons h
        · intro h
          cases h with
          | cons h3 => exact h3
          | rel h1' => exact absurd h1' h1

/-- Correctness of `strLtB` for the standard string order. -/
theorem strLtB_iff (a b : String) : strLtB a b = true ↔ a < b := by
  rw [String.lt_iff_toList_lt]
  exact ltChars_iff a.data b.data

/-- Membership through descending insertion. -/
theorem mem_insertRel {r a : Release} {l : List Release} :
    a ∈ insertRel r l ↔ a = r ∨ a ∈ l := by
  induction l with
  | nil => simp [insertRel]
  | cons x xs ih =>
    cases h : strLtB r.published_at x.published_at
    · simp only [insertRel, h, Bool.false_eq_true, if_false, List.mem_cons]
    · simp only [insertRel, h, if_true, List.mem_cons, ih]
      tauto

/-- Descending insertion preserves the descending-by-publish-date
invariant. -/
theorem pairwise_insertRel {r : Release} {l : List Release}
    (hl : l.Pairwise (fun a b => b.published_at ≤ a.published_at)) :
    (insertRel r l).Pairwise (fun a b => b.published_at ≤ a.published_at) := by
  induction l with
  | nil => simp [insertRel]
  | cons x xs ih =>
    rcases List.pairwise_cons.mp hl with ⟨hx, hxs⟩
    cases h : strLtB r.published_at x.published_at
    · have hnl : ¬ r.published_at < x.published_at := fun hc =>
        absurd ((strLtB_iff _ _).mpr hc) (by simp [h])
      have he : insertRel r (x :: xs) = r :: x :: xs := by
        simp [insertRel, h]
      rw [he]
      refine List.pairwise_cons.mpr ⟨?_, hl⟩
      intro b hb
      rcases List.mem_cons.mp hb with rfl | hb
      · exact le_of_not_lt hnl
      · exact le_trans (hx b hb) (le_of_not_lt hnl)
    · have hlt : r.published_at < x.published_at := (strLtB_iff _ _).mp h
      have he : insertRel r (x :: xs) = x :: insertRel r xs := by
        simp [insertRel, h]
      rw [he]
      refine List.pairwise_cons.mpr ⟨?_, ih hxs⟩
      intro b hb
      rcases mem_insertRel.mp hb with rfl | hb
      · exact le_of_lt hlt
      · exact hx b hb

/-- The sorted list holds exactly the original releases. -/
theorem mem_sortReleases {a : Release} {rs : List Release} :
    a ∈ sortReleases rs ↔ a ∈ rs := by
  induction rs with
  | nil => simp [sortReleases]
  | cons x xs ih =>
    show a ∈ insertRel x (sortReleases xs) ↔ _
    rw [mem_insertRel, ih]
    simp

/-- The sorted list is descending by publish date. -/
theorem pairwise_sortReleases (rs : List Release) :
    (sortReleases rs).Pairwise (fun a b => b.published_at ≤ a.published_at) := by
  induction rs with
  | nil => simp [sortReleases]
  | cons x xs ih => exact pairwise_insertRel ih

/-- After an edge-cache miss with no KV entry for the path, a validated
request (download or not) proceeds straight to resolve-and-deliver. -/
theorem handleRequest_kvmiss (env : Env) (url : ReqUrl) (w : World)
    (hmiss : lookupStr w.edge url.href = none)
    (hval : ValidDescriptor (getDataFromRequest url))
    (hkv : lookupStr w.kv url.pathname = none) :
    handleRequest env url w =
      ((resolveAndDeliver env url (getDataFromRequest url) url.href w).1,
       (resolveAndDeliver env url (getDataFromRequest url) url.href w).2.1,
       [Event.edgeMatch url.href, Event.kvGet url.pathname] ++
         (resolveAndDeliver env url (getDataFromRequest url) url.href w).2.2) := by
  obtain ⟨ht, hv, hp⟩ := hval
  have h1 : ¬ ((getDataFromRequest url).type ≠ some "theme" ∧
      (getDataFromRequest url).type ≠ some "plugin") := by
    rcases ht with h | h <;> simp [h]
  unfold handleRequest
  dsimp only
  rw [hmiss]
  dsimp only
  rw [if_neg h1, if_neg (by simp [hv]), if_neg (by simp [hp]), hkv]
  rcases he : resolveAndDeliver env url (getDataFromRequest url) url.href w with ⟨r, w3, t3⟩
  simp [fastPathTag, he]

/-- A failed origin resolution is proxied as a 404 carrying the error
text, with no further effects. -/
theorem resolveAndDeliver_origin_error (env : Env) (url : ReqUrl)
    (data : RequestData) (ck : String) (w : World) (e : String)
    (evs : List Event) (hres : resolveReleases env data = (.error e, evs)) :
    resolveAndDeliver env url data ck w = (.ok (getErrorResponse e 404), w, evs) := by
  unfold resolveAndDeliver
  rw [hres]

/-- Origin resolution performs only network fetches: its event list is
the list fetch alone, or the list fetch followed by the tag fetch. -/
theorem resolveReleases_events_fetch (env : Env) (data : RequestData) :
    (resolveReleases env data).2 = [Event.fetch (releasesListUrl data)] ∨
    (resolveReleases env data).2 =
      [Event.fetch (releasesListUrl data),
       Event.fetch (releaseTagUrl data (jsStr data.version))] := by
  unfold resolveReleases
  dsimp only
  rcases getLatestReleaseDetailJsonFromGitHub (env.fetchResp (releasesListUrl data)) with e | latest
  · left; rfl
  · dsimp only
    by_cases hver : jsTruthy data.version
    · rw [if_pos hver]
      rcases getRelease (env.fetchResp (releaseTagUrl data (jsStr data.version)))
          (jsStr data.version) with e2 | r2
      · right; rfl
      · right; rfl
    · rw [if_neg hver]
      left; rfl

/-- When the KV write blows up, the whole handler rejects with that
error: line 104 of `index.js` awaits `setKV` outside any `try`. -/
theorem resolveAndDeliver_kvfail (env : Env) (url : ReqUrl) (data : RequestData)
    (ck : String) (w : World) (lr rel : Release) (evs : List Event) (m : String)
    (hres : resolveReleases env data = (.ok (lr, rel), evs))
    (hfile : (env.fetchResp (rawFileUrl data rel)).status = 200)
    (hkv : env.kvPutError = some m) :
    (resolveAndDeliver env url data ck w).1 = .error m := by
  unfold resolveAndDeliver
  rw [hres]
  dsimp only
  rw [if_neg (by simp [hfile]), hkv]

/-- The download delivery block never rejects: every branch (blob served,
blob missing, any caught error) produces a response. -/
theorem deliverDownload_ok (env : Env) (data : RequestData) (ck : String)
    (lr : Release) (payload : Payload) (w : World) :
    ∃ r, (deliverDownload env data ck lr payload w).1 = .ok r := by
  unfold deliverDownload
  dsimp only
  rcases fetchSavedFromR2 env data lr.tag_name
      (saveToR2 env data lr.tag_name payload.download w).1 with ⟨(e | (_ | rr)), w2, tb⟩
  · exact ⟨_, rfl⟩
  · exact ⟨_, rfl⟩
  · dsimp only
    by_cases hep : env.edgePutError
    · rw [if_pos hep]
      exact ⟨_, rfl⟩
    · rw [if_neg hep]
      exact ⟨_, rfl⟩

/-- A download request surviving origin resolution always gets a
response, regardless of blob-store faults. -/
theorem resolveAndDeliver_download_ok (env : Env) (url : ReqUrl)
    (data : RequestData) (ck : String) (w : World) (lr rel : Release)
    (evs : List Event)
    (hres : resolveReleases env data = (.ok (lr, rel), evs))
    (hfile : (env.fetchResp (rawFileUrl data rel)).status = 200)
    (hdl : data.isDownload = true) (hkvok : env.kvPutError = none) :
    ∃ r, (resolveAndDeliver env url data ck w).1 = .ok r := by
  unfold resolveAndDeliver
  rw [hres]
  dsimp only
  rw [if_neg (by simp [hfile]), hkvok]
  dsimp only
  rw [if_pos (by simp [hdl])]
  exact deliverDownload_ok env _ ck lr _ _

/-- Saving to the blob store never removes or overwrites an existing entry: the
only write is guarded by "the key is absent". -/
theorem saveToR2_r2_keeps (env : Env) (data : RequestData) (version du : String)
    (w : World) (k v : String) (h : lookupStr w.r2 k = some v) :
    lookupStr (saveToR2 env data version du w).1.r2 k = some v := by
  unfold saveToR2 fetchSavedFromR2
  dsimp only
  cases hg : env.r2GetError with
  | some m => simpa using h
  | none =>
    dsimp only
    cases hl : lookupStr w.r2 (getFullR2Key data version) with
    | some bytes => simpa using h
    | none =>
      dsimp only
      by_cases hst : (env.fetchResp du).status ≠ 200
      · rw [if_pos hst]
        simpa using h
      · rw [if_neg hst]
        cases hp : env.r2PutError with
        | some m => simpa using h
        | none =>
          dsimp only
          have hk : ¬ getFullR2Key data version = k := by
            intro he
            rw [he, h] at hl
            cases hl
          simp [lookupStr, hk, h]

/-- The download delivery block never removes a blob entry. -/
theorem deliverDownload_r2_keeps (env : Env) (data : RequestData) (ck : String)
    (lr : Release) (payload : Payload) (w : World) (k v : String)
    (h : lookupStr w.r2 k = some v) :
    lookupStr (deliverDownload env data ck lr payload w).2.1.r2 k = some v := by
  have h1 : lookupStr (saveToR2 env data lr.tag_name payload.download w).1.r2 k = some v :=
    saveToR2_r2_keeps env data lr.tag_name payload.download w k v h
  have hw := fetchSavedFromR2_world_eq env data lr.tag_name
    (saveToR2 env data lr.tag_name payload.download w).1
  unfold deliverDownload
  dsimp only
  rcases hf : fetchSavedFromR2 env data lr.tag_name
      (saveToR2 env data lr.tag_name payload.download w).1 with ⟨(e | (_ | rr)), w2, tb⟩ <;>
    rw [hf] at hw <;> dsimp only at hw
  · dsimp only
    rw [hw]
    exact h1
  · dsimp only
    rw [hw]
    exact h1
  · dsimp only
    by_cases hep : env.edgePutError
    · rw [if_pos hep]
      dsimp only
      rw [hw]
      exact h1
    · rw [if_neg hep]
      dsimp only
      rw [hw]
      exact h1

/-- The resolve-and-deliver stage never removes a blob entry. -/
theorem resolveAndDeliver_r2_keeps (env : Env) (url : ReqUrl)
    (data : RequestData) (ck : String) (w : World) (k v : String)
    (h : lookupStr w.r2 k = some v) :
    lookupStr (resolveAndDeliver env url data ck w).2.1.r2 k = some v := by
  unfold resolveAndDeliver
  rcases resolveReleases env data with ⟨(e | ⟨lr, rel⟩), evs⟩
  · exact h
  · dsimp only
    by_cases hf : (env.fetchResp (rawFileUrl data rel)).status ≠ 200
    · rw [if_pos hf]
      exact h
    · rw [if_neg hf]
      cases env.kvPutError with
      | some m => exact h
      | none =>
        dsimp only
        by_cases hdl : data.isDownload = true
        · rw [if_pos hdl]
          exact deliverDownload_r2_keeps env _ ck lr _ _ k v h
        · rw [if_neg hdl]
          by_cases hep : env.edgePutError
          · rw [if_pos hep]
            exact h
          · rw [if_neg hep]
            exact h

/-! # Claim theorems -/

/-- C4: a request URL with a stored edge-cache entry is answered with that
entry verbatim; the run performs exactly the one edge-cache lookup, so in
particular no origin call, no blob-store access and no metadata-cache
access happens. -/
theorem c4_edge_hit_verbatim (env : Env) (url : ReqUrl) (w : World)
    (r : HttpResp) (hhit : lookupStr w.edge url.href = some r) :
    handleRequest env url w = (.ok r, w, [.edgeMatch url.href]) ∧
    ∀ u, Event.fetch u ∉ (handleRequest env url w).2.2 ∧
         Event.r2Get u ∉ (handleRequest env url w).2.2 ∧
         Event.r2Put u ∉ (handleRequest env url w).2.2 ∧
         Event.kvGet u ∉ (handleRequest env url w).2.2 := by
  have h : handleRequest env url w = (.ok r, w, [.edgeMatch url.href]) := by
    unfold handleRequest
    simp [hhit]
  refine ⟨h, ?_⟩
  intro u
  rw [h]
  simp

/-- C4 witness: a concrete world with a stored response for `metaUrl`. -/
theorem c4_edge_hit_verbatim_witness :
    handleRequest env0 metaUrl wEdge = (.ok cachedResp, wEdge, [.edgeMatch metaUrl.href]) :=
  (c4_edge_hit_verbatim env0 metaUrl wEdge cachedResp rfl).1

/-- C5: latest-release selection returns a non-draft, non-prerelease
release with at least one asset drawn from the input list, and no viable
release in the list was published later; it fails when no release
survives the filter; and on the spec's example list (a draft 2.0, a
prerelease 1.9, an asset-less 1.8 and a viable 1.7) it returns 1.7. -/
theorem c5_latest_release_selection (resp : OriginResp) (rs : List Release)
    (hst : resp.status = 200) (harr : resp.releasesArr = some rs) :
    (∀ r, getLatestReleaseDetailJsonFromGitHub resp = .ok r →
        r ∈ rs ∧ r.draft = false ∧ r.prerelease = false ∧ r.assets ≠ [] ∧
        ∀ r' ∈ rs, viableRelease r' = true → r'.published_at ≤ r.published_at) ∧
    ((∀ r' ∈ rs, viableRelease r' = false) →
        ∃ msg, getLatestReleaseDetailJsonFromGitHub resp = .error msg) ∧
    getLatestReleaseDetailJsonFromGitHub exampleListResp = .ok relOk := by
  have hsel : getLatestReleaseDetailJsonFromGitHub resp =
      (if rs.isEmpty then .error "No releases available!" else
        match (sortReleases rs).filter (fun r => viableRelease r) with
        | [] => .error "No valid releases available!"
        | r :: _ => .ok r) := by
    unfold getLatestReleaseDetailJsonFromGitHub
    rw [hst, harr]
    rw [if_neg (by simp)]
  refine ⟨?_, ?_, ?_⟩
  · intro r hr
    rw [hsel] at hr
    by_cases hemp : rs.isEmpty
    · rw [if_pos hemp] at hr
      exact absurd hr (by simp)
    · rw [if_neg hemp] at hr
      cases hfil : (sortReleases rs).filter (fun r => viableRelease r) with
      | nil => rw [hfil] at hr; exact absurd hr (by simp)
      | cons r0 rest =>
        rw [hfil] at hr
        have hrr : r = r0 := by
          cases hr; rfl
        subst hrr
        have hmem : r ∈ (sortReleases rs).filter (fun r => viableRelease r) := by
          rw [hfil]; exact List.mem_cons_self _ _
        have hvr : viableRelease r = true := (List.mem_filter.mp hmem).2
        have hrs : r ∈ rs := mem_sortReleases.mp (List.mem_filter.mp hmem).1
        have hflags : (r.draft = false ∧ r.prerelease = false) ∧ ¬ r.assets = [] := by
          simpa [viableRelease, Bool.and_eq_true, Bool.not_eq_true'] using hvr
        refine ⟨hrs, hflags.1.1, hflags.1.2, hflags.2, ?_⟩
        intro r' hr' hv
        have h1 : r' ∈ (sortReleases rs).filter (fun r => viableRelease r) :=
          List.mem_filter.mpr ⟨mem_sortReleases.mpr hr', hv⟩
        have hp : ((sortReleases rs).filter (fun r => viableRelease r)).Pairwise
            (fun a b => b.published_at ≤ a.published_at) :=
          List.Pairwise.sublist (List.filter_sublist _) (pairwise_sortReleases rs)
        rw [hfil] at h1 hp
        rcases List.pairwise_cons.mp hp with ⟨hhead, _⟩
        rcases List.mem_cons.mp h1 with rfl | hb
        · exact le_refl _
        · exact hhead r' hb
  · intro hall
    rw [hsel]
    by_cases hemp : rs.isEmpty
    · exact ⟨_, by rw [if_pos hemp]⟩
    · have hfil : (sortReleases rs).filter (fun r => viableRelease r) = [] := by
        rw [List.filter_eq_nil_iff]
        intro a ha
        simp [hall a (mem_sortReleases.mp ha)]
      rw [if_neg hemp, hfil]
      exact ⟨_, rfl⟩
  · rfl

/-- C5 witness: the theorem instantiated at the spec's example response,
whose selection returns the 1.7 release. -/
theorem c5_latest_release_selection_witness :
    getLatestReleaseDetailJsonFromGitHub exampleListResp = .ok relOk ∧
    relOk ∈ [relDraft, relPre, relNoAsset, relOk] ∧ relOk.draft = false ∧
    relOk.prerelease = false ∧ relOk.assets ≠ [] :=
  have h := c5_latest_release_selection exampleListResp
    [relDraft, relPre, relNoAsset, relOk] rfl rfl
  have h1 := h.1 relOk h.2.2
  ⟨h.2.2, h1.1, h1.2.1, h1.2.2.1, h1.2.2.2.1⟩

/-- C6: a release fetched by explicit tag is accepted exactly when it has
at least one asset, and rejected with the no-asset message otherwise; its
`draft` and `prerelease` flags are never consulted (the statement holds
for arbitrary flag values). -/
theorem c6_tagged_release_asset_only (resp : OriginResp) (r : Release)
    (v : String) (hst : resp.status = 200) (hobj : resp.releaseObj = some r) :
    (getRelease resp v = .ok r ↔ r.assets ≠ []) ∧
    (r.assets = [] →
      getRelease resp v = .error ("Release " ++ v ++ " doesn't have a release asset!")) := by
  have hsel : getRelease resp v =
      (if r.assets.length = 0 then
        .error ("Release " ++ v ++ " doesn't have a release asset!")
      else .ok r) := by
    unfold getRelease
    rw [hst, hobj]
    rw [if_neg (by simp)]
  constructor
  · rw [hsel]
    by_cases h : r.assets.length = 0
    · rw [if_pos h]
      simp [List.length_eq_zero.mp h]
    · rw [if_neg h]
      simp
      intro he
      exact h (by rw [he]; rfl)
  · intro h
    rw [hsel, if_pos (by rw [h]; rfl)]

/-- C6 witness: a draft release carrying one asset is returned by the
tagged-release validator despite `draft = true`. -/
theorem c6_tagged_release_asset_only_witness :
    getRelease draftTagResp "3.0" = .ok draftWithAsset ∧
    draftWithAsset.draft = true :=
  ⟨(c6_tagged_release_asset_only draftTagResp draftWithAsset "3.0" rfl rfl).1.mpr
      (by decide),
   by decide⟩

/-- C10: in the constructed payload, `name` and `version.current` have no
default: when the relevant header is missing the serialized JSON omits the
key entirely, and when present the key carries the header value; whereas
`description`, `author.name`, `author.url`, `requires.wp`, `requires.php`,
`tested.wp`, `url` (and `updated`, read from the release) fall back to the
empty string and are always serialized. -/
theorem c10_payload_optional_and_defaulted_fields (data : RequestData) :
    (nameHeaderOf data = none →
      "name" ∉ objKeys (payloadJson (getPayload data))) ∧
    (∀ n, nameHeaderOf data = some n →
      jsonField (payloadJson (getPayload data)) "name" = some (.str n)) ∧
    (lookupStr data.fileHeaders "Version" = none →
      jsonField (payloadJson (getPayload data)) "version" =
        some (.obj [("latest", .str (getPayload data).versionLatest)])) ∧
    (∀ v, lookupStr data.fileHeaders "Version" = some v →
      jsonField (payloadJson (getPayload data)) "version" =
        some (.obj [("current", .str v),
                    ("latest", .str (getPayload data).versionLatest)])) ∧
    (lookupStr data.fileHeaders "Description" = none →
      jsonField (payloadJson (getPayload data)) "description" = some (.str "")) ∧
    (lookupStr data.fileHeaders "Author" = none →
      lookupStr data.fileHeaders "Author URI" = none →
      jsonField (payloadJson (getPayload data)) "author" =
        some (.obj [("name", .str ""), ("url", .str "")])) ∧
    (lookupStr data.fileHeaders "Requires at least" = none →
      lookupStr data.fileHeaders "Requires PHP" = none →
      jsonField (payloadJson (getPayload data)) "requires" =
        some (.obj [("wp", .str ""), ("php", .str "")])) ∧
    (lookupStr data.fileHeaders "Tested up to" = none →
      jsonField (payloadJson (getPayload data)) "tested" =
        some (.obj [("wp", .str "")])) ∧
    (urlHeaderOf data = none →
      jsonField (payloadJson (getPayload data)) "url" = some (.str "")) ∧
    (data.release = none →
      jsonField (payloadJson (getPayload data)) "updated" = some (.str "")) := by
  refine ⟨?_, ?_, ?_, ?_, ?_, ?_, ?_, ?_, ?_, ?_⟩
  · intro h
    have hn : (getPayload data).name = none := by
      rw [getPayload]
      simpa [nameHeaderOf] using h
    simp [payloadJson, objKeys, hn]
    cases (getPayload data).basename <;> simp
  · intro n h
    have hn : (getPayload data).name = some n := by
      rw [getPayload]
      simpa [nameHeaderOf] using h
    simp [payloadJson, jsonField, hn, lookupStr]
  · intro h
    have hv : (getPayload data).versionCurrent = none := by
      rw [getPayload]
      simpa using h
    simp [payloadJson, jsonField, hv, lookupStr]
    cases hnm : (getPayload data).name <;> simp [lookupStr]
  · intro v h
    have hv : (getPayload data).versionCurrent = some v := by
      rw [getPayload]
      simpa using h
    simp [payloadJson, jsonField, hv, lookupStr]
    cases hnm : (getPayload data).name <;> simp [lookupStr]
  · intro h
    have hd : (getPayload data).description = "" := by
      rw [getPayload]
      simp [h]
    simp [payloadJson, jsonField, hd, lookupStr]
    cases hnm : (getPayload data).name <;> simp [lookupStr]
  · intro h1 h2
    have ha : (getPayload data).authorName = "" ∧ (getPayload data).authorUrl = "" := by
      rw [getPayload]
      simp [h1, h2]
    simp [payloadJson, jsonField, ha.1, ha.2, lookupStr]
    cases hnm : (getPayload data).name <;> simp [lookupStr]
  · intro h1 h2
    have ha : (getPayload data).requiresWp = "" ∧ (getPayload data).requiresPhp = "" := by
      rw [getPayload]
      simp [h1, h2]
    simp [payloadJson, jsonField, ha.1, ha.2, lookupStr]
    cases hnm : (getPayload data).name <;> simp [lookupStr]
  · intro h
    have ht : (getPayload data).testedWp = "" := by
      rw [getPayload]
      simp [h]
    simp [payloadJson, jsonField, ht, lookupStr]
    cases hnm : (getPayload data).name <;> simp [lookupStr]
  · intro h
    have hu : (getPayload data).url = "" := by
      rw [getPayload]
      rw [urlHeaderOf] at h
      simp [h]
    simp [payloadJson, jsonField, hu, lookupStr]
    cases hnm : (getPayload data).name <;> simp [lookupStr]
  · intro h
    have hu : (getPayload data).updated = "" := by
      rw [getPayload]
      simp [h]
      rfl
    simp [payloadJson, jsonField, hu, lookupStr]
    cases hnm : (getPayload data).name <;> simp [lookupStr]

/-- C10 witness: a plugin request whose fetched file has no headers at
all: the JSON omits `name` and `version.current` and defaults the rest. -/
theorem c10_payload_optional_and_defaulted_fields_witness :
    "name" ∉ objKeys (payloadJson (getPayload (getDataFromRequest metaUrl))) ∧
    jsonField (payloadJson (getPayload (getDataFromRequest metaUrl))) "version" =
      some (.obj [("latest",
        .str (getPayload (getDataFromRequest metaUrl)).versionLatest)]) ∧
    jsonField (payloadJson (getPayload (getDataFromRequest metaUrl))) "description" =
      some (.str "") :=
  have h := c10_payload_optional_and_defaulted_fields (getDataFromRequest metaUrl)
  ⟨h.1 (by decide), h.2.2.1 (by decide), h.2.2.2.2.1 (by decide)⟩

/-- C3 counterexample: with six artifacts `v6-x.zip` … `v1-x.zip` stored
for package `x`, a version-less download request (served through the KV
fast path) leaves the blob store byte-for-byte unchanged — all six
artifacts remain and nothing is listed or deleted, refuting "only the
top 5 remain". -/
theorem c3_six_artifacts_retained :
    w6.r2.length = 6 ∧
    (handleRequest env0 dlxUrl w6).2.1.r2 = w6.r2 ∧
    lookupStr (handleRequest env0 dlxUrl w6).2.1.r2 "v1-x.zip" = some "B1" ∧
    (∃ r, (handleRequest env0 dlxUrl w6).1 = .ok r) :=
  ⟨by decide, by decide, by decide, ⟨_, rfl⟩⟩

/-- C3 (amended): the worker has no retention policy at all: every blob
lookup uses an exact `{version}-{package}.zip` key, the store is never
listed, and no key is ever deleted or overwritten — any stored artifact
survives any request unchanged. -/
theorem c3_r2_store_never_evicts (env : Env) (url : ReqUrl) (w : World)
    (k v : String) (h : lookupStr w.r2 k = some v) :
    lookupStr (handleRequest env url w).2.1.r2 k = some v := by
  unfold handleRequest
  dsimp only
  cases hedge : lookupStr w.edge url.href with
  | some r => simpa using h
  | none =>
    dsimp only
    split
    · exact h
    · split
      · exact h
      · split
        · exact h
        · split
          · rename_i version hfast
            have hw := fetchSavedFromR2_world_eq env (getDataFromRequest url) version w
            rcases hf : fetchSavedFromR2 env (getDataFromRequest url) version w with
              ⟨(e | (_ | rr)), w2, tb⟩ <;> rw [hf] at hw <;> dsimp only at hw
            · dsimp only
              rw [hw]
              exact h
            · dsimp only
              exact resolveAndDeliver_r2_keeps env url _ url.href w2 k v (hw ▸ h)
            · dsimp only
              by_cases hep : env.edgePutError
              · rw [if_pos hep]
                dsimp only
                rw [hw]
                exact h
              · rw [if_neg hep]
                dsimp only
                rw [hw]
                exact h
          · exact resolveAndDeliver_r2_keeps env url _ url.href w k v h

/-- C3 witness: the oldest of the six stored artifacts survives the
version-less download request. -/
theorem c3_r2_store_never_evicts_witness :
    lookupStr (handleRequest env0 dlxUrl w6).2.1.r2 "v1-x.zip" = some "B1" :=
  c3_r2_store_never_evicts env0 dlxUrl w6 "v1-x.zip" "B1" (by decide)

/-- C8 (code bug): for the explicit-version download `.../1.0.0/download`
whose latest release is 2.0.0, line 113 of `index.js` takes
`data.latestRelease.tag_name`, so the 1.0.0 asset's bytes are fetched but
persisted at key `2.0.0-widget.zip`; no entry is created at
`1.0.0-widget.zip`, contradicting "persisted under the resolved release's
tag". -/
theorem c8_download_saved_under_latest_tag :
    (getDataFromRequest dlUrl).version = some "1.0.0" ∧
    ((handleRequest env0 dlUrl w0).2.2.filter (fun e => isR2Put e)) =
      [Event.r2Put "2.0.0-widget.zip"] ∧
    Event.fetch "https://gh/dl/1.0.0/widget.zip" ∈ (handleRequest env0 dlUrl w0).2.2 ∧
    lookupStr (handleRequest env0 dlUrl w0).2.1.r2 "2.0.0-widget.zip" = some "ZIPBYTES1" ∧
    lookupStr (handleRequest env0 dlUrl w0).2.1.r2 "1.0.0-widget.zip" = none := by
  decide

/-- C7 counterexample: with a metadata-cache write that throws, the very
request that resolves successfully under a healthy environment is not
answered at all — the handler rejects with the KV error (the `await
setKV(...)` on line 104 of `index.js` is not wrapped in any `try`),
refuting "a failure of the metadata-cache write never surfaces". -/
theorem c7_kv_write_failure_surfaces :
    (handleRequest envKvFail metaUrl w0).1 = .error "KV put failed" ∧
    (∃ r, (handleRequest env0 metaUrl w0).1 = .ok r) :=
  ⟨rfl, ⟨_, rfl⟩⟩

/-- C7 (amended): blob-store faults during download delivery are swallowed
(the caller still gets a response), but a metadata-cache write failure
propagates out of the handler as an exception in place of the already
computed successful resolution. -/
theorem c7_write_failure_propagation :
    (∀ (env : Env) (url : ReqUrl) (w : World) (lr rel : Release)
        (evs : List Event) (m : String),
      lookupStr w.edge url.href = none →
      ValidDescriptor (getDataFromRequest url) →
      (getDataFromRequest url).isDownload = false →
      resolveReleases env (getDataFromRequest url) = (.ok (lr, rel), evs) →
      (env.fetchResp (rawFileUrl (getDataFromRequest url) rel)).status = 200 →
      env.kvPutError = some m →
      (handleRequest env url w).1 = .error m) ∧
    (∀ (env : Env) (url : ReqUrl) (w : World) (lr rel : Release)
        (evs : List Event),
      lookupStr w.edge url.href = none →
      ValidDescriptor (getDataFromRequest url) →
      (getDataFromRequest url).isDownload = true →
      lookupStr w.kv url.pathname = none →
      resolveReleases env (getDataFromRequest url) = (.ok (lr, rel), evs) →
      (env.fetchResp (rawFileUrl (getDataFromRequest url) rel)).status = 200 →
      env.kvPutError = none →
      ∃ r, (handleRequest env url w).1 = .ok r) := by
  constructor
  · intro env url w lr rel evs m hmiss hval hnd hres hfile hkv
    rw [handleRequest_valid_nondownload env url w hmiss hval hnd]
    exact resolveAndDeliver_kvfail env url _ _ w lr rel evs m hres hfile hkv
  · intro env url w lr rel evs hmiss hval hdl hkvnone hres hfile hkvok
    rw [handleRequest_kvmiss env url w hmiss hval hkvnone]
    exact resolveAndDeliver_download_ok env url _ _ w lr rel evs hres hfile hdl hkvok

/-- C7 witness: the two halves at concrete requests — the KV-write fault
turns the metadata request into a rejection, while a healthy KV lets the
version-less download request succeed whatever R2 does. -/
theorem c7_write_failure_propagation_witness :
    (handleRequest envKvFail metaUrl w0).1 = .error "KV put failed" ∧
    ∃ r, (handleRequest env0 dlLatestUrl w0).1 = .ok r :=
  ⟨c7_write_failure_propagation.1 envKvFail metaUrl w0 rel2 rel2
      [.fetch "https://api.github.com/repos/acme/widget/releases"] "KV put failed"
      rfl ⟨Or.inl (by decide), by decide, by decide⟩ (by decide) rfl rfl rfl,
   c7_write_failure_propagation.2 env0 dlLatestUrl w0 rel2 rel2
      [.fetch "https://api.github.com/repos/acme/widget/releases"]
      rfl ⟨Or.inl (by decide), by decide, by decide⟩ (by decide) rfl rfl rfl rfl⟩

/-- C2 counterexample: a version-less download request with no cached
metadata and a failing origin returns the origin error as a 404 even
though an artifact for the package exists in the blob store at version
1.0.0 — the pipeline never even reads the blob store, refuting the
claimed durable-artifact fallback. -/
theorem c2_origin_failure_ignores_existing_artifact :
    (handleRequest envOriginFail dlLatestUrl wC2).1 =
      .ok (getErrorResponse "upstream exploded" 404) ∧
    lookupStr wC2.r2 "1.0.0-widget.zip" = some "OLDBYTES" ∧
    ((handleRequest envOriginFail dlLatestUrl wC2).2.2.filter
        (fun e => isR2Get e || isR2Put e)) = [] :=
  ⟨rfl, by decide, by decide⟩

/-- C2 (amended): for a download request with no cached metadata, a failed
origin resolution is terminal: the worker responds 404 with the origin
error text, leaves every store untouched, and performs no blob-store
access at all (there is no any-version artifact fallback in the code). -/
theorem c2_download_origin_failure_no_fallback (env : Env) (url : ReqUrl)
    (w : World) (e : String) (evs : List Event)
    (hmiss : lookupStr w.edge url.href = none)
    (hval : ValidDescriptor (getDataFromRequest url))
    (_hdl : (getDataFromRequest url).isDownload = true)
    (hkv : lookupStr w.kv url.pathname = none)
    (hres : resolveReleases env (getDataFromRequest url) = (.error e, evs)) :
    (handleRequest env url w).1 = .ok (getErrorResponse e 404) ∧
    (handleRequest env url w).2.1 = w ∧
    ∀ k, Event.r2Get k ∉ (handleRequest env url w).2.2 ∧
         Event.r2Put k ∉ (handleRequest env url w).2.2 := by
  rw [handleRequest_kvmiss env url w hmiss hval hkv]
  rw [resolveAndDeliver_origin_error env url _ url.href w e evs hres]
  refine ⟨rfl, rfl, ?_⟩
  intro k
  have hevs : evs = [Event.fetch (releasesListUrl (getDataFromRequest url))] ∨
      evs = [Event.fetch (releasesListUrl (getDataFromRequest url)),
             Event.fetch (releaseTagUrl (getDataFromRequest url)
               (jsStr (getDataFromRequest url).version))] := by
    have h := resolveReleases_events_fetch env (getDataFromRequest url)
    rw [hres] at h
    exact h
  rcases hevs with hevs | hevs <;> rw [hevs] <;> simp

/-- C2 witness: the amended statement at the concrete failing origin. -/
theorem c2_download_origin_failure_no_fallback_witness :
    (handleRequest envOriginFail dlLatestUrl wC2).1 =
      .ok (getErrorResponse "upstream exploded" 404) ∧
    (handleRequest envOriginFail dlLatestUrl wC2).2.1 = wC2 :=
  have h := c2_download_origin_failure_no_fallback envOriginFail dlLatestUrl wC2
    "upstream exploded" [.fetch "https://api.github.com/repos/acme/widget/releases"]
    rfl ⟨Or.inl (by decide), by decide, by decide⟩ (by decide) rfl rfl
  ⟨h.1, h.2.1⟩

/-- C1 counterexample: for the invalid-type request `badUrl` the worker
does return the 400 entity-type error, but the run's trace contains an
edge-response-cache read (the unconditional `cache.match` of line 29 of
`index.js`), refuting "no access to any cache tier (edge response cache,
metadata cache, or blob store) before doing so". -/
theorem c1_edge_cache_read_precedes_validation_error :
    (handleRequest env0 badUrl w0).1 = .ok (getErrorResponse typeErrorMsg) ∧
    Event.edgeMatch badUrl.href ∈ (handleRequest env0 badUrl w0).2.2 :=
  ⟨rfl, by decide⟩

/-- C1 (amended): an invalid or missing type/vendor/package yields the
corresponding 400 error whose message mentions "entity type" / "vendor" /
"package", with no origin call, no metadata-cache access, no blob-store
access and no cache write: the only cache-tier access preceding the
response is the single unconditional edge-response-cache lookup. -/
theorem c1_invalid_descriptor_short_circuit (env : Env) (url : ReqUrl) (w : World)
    (hmiss : lookupStr w.edge url.href = none) :
    ((getDataFromRequest url).type ≠ some "theme" ∧
       (getDataFromRequest url).type ≠ some "plugin" →
       handleRequest env url w = (.ok (getErrorResponse typeErrorMsg), w, [.edgeMatch url.href])) ∧
    (((getDataFromRequest url).type = some "theme" ∨
        (getDataFromRequest url).type = some "plugin") →
       jsTruthy (getDataFromRequest url).vendor = false →
       handleRequest env url w = (.ok (getErrorResponse vendorErrorMsg), w, [.edgeMatch url.href])) ∧
    (((getDataFromRequest url).type = some "theme" ∨
        (getDataFromRequest url).type = some "plugin") →
       jsTruthy (getDataFromRequest url).vendor = true →
       jsTruthy (getDataFromRequest url).package = false →
       handleRequest env url w = (.ok (getErrorResponse packageErrorMsg), w, [.edgeMatch url.href])) ∧
    mentionsText "entity type" typeErrorMsg = true ∧
    mentionsText "vendor" vendorErrorMsg = true ∧
    mentionsText "package" packageErrorMsg = true := by
  refine ⟨?_, ?_, ?_, by decide, by decide, by decide⟩
  · intro h
    unfold handleRequest
    simp only [hmiss]
    rw [if_pos h]
  · intro htype hv
    unfold handleRequest
    simp only [hmiss]
    have h1 : ¬ ((getDataFromRequest url).type ≠ some "theme" ∧
        (getDataFromRequest url).type ≠ some "plugin") := by
      rcases htype with h | h <;> simp [h]
    rw [if_neg h1, if_pos (by simp [hv])]
  · intro htype hv hp
    unfold handleRequest
    simp only [hmiss]
    have h1 : ¬ ((getDataFromRequest url).type ≠ some "theme" ∧
        (getDataFromRequest url).type ≠ some "plugin") := by
      rcases htype with h | h <;> simp [h]
    rw [if_neg h1, if_neg (by simp [hv]), if_pos (by simp [hp])]

/-- C9 counterexample: the valid metadata (non-download) request
`metaUrl` performs a metadata-cache `get` (`getKV` on line 65 of
`index.js` runs before `data.isDownload` is ever consulted), refuting
"for every non-download request, the pipeline never performs a
metadata-cache get". -/
theorem c9_metadata_request_reads_kv :
    (getDataFromRequest metaUrl).isDownload = false ∧
    Event.kvGet metaUrl.pathname ∈ (handleRequest env0 metaUrl w0).2.2 := by
  decide

/-- C9 (amended): the metadata-cache read happens for every validated
request, downloads or not; its result is *used* only on the download fast
path, so for a non-download request the response and the trace are the
same as if the metadata cache were empty. -/
theorem c9_kv_read_unconditional_result_unused (env : Env) (url : ReqUrl)
    (w : World) (hmiss : lookupStr w.edge url.href = none)
    (hval : ValidDescriptor (getDataFromRequest url))
    (hnd : (getDataFromRequest url).isDownload = false) :
    Event.kvGet url.pathname ∈ (handleRequest env url w).2.2 ∧
    (handleRequest env url w).1 = (handleRequest env url { w with kv := [] }).1 ∧
    (handleRequest env url w).2.2 = (handleRequest env url { w with kv := [] }).2.2 := by
  have hl := handleRequest_valid_nondownload env url w hmiss hval hnd
  have hl' := handleRequest_valid_nondownload env url { w with kv := [] } hmiss hval hnd
  have hi := resolveAndDeliver_indep env url (getDataFromRequest url) url.href hnd
    w { w with kv := [] }
  refine ⟨?_, ?_, ?_⟩
  · rw [hl]; simp
  · rw [hl, hl']; exact hi.1
  · rw [hl, hl']
    dsimp only
    rw [hi.2]

/-- C9 witness: the amended statement at the concrete request `metaUrl`. -/
theorem c9_kv_read_unconditional_result_unused_witness :
    Event.kvGet metaUrl.pathname ∈ (handleRequest env0 metaUrl w0).2.2 :=
  (c9_kv_read_unconditional_result_unused env0 metaUrl w0 rfl
    ⟨Or.inl (by decide), by decide, by decide⟩ (by decide)).1

/-- C1 witness: the three error branches at concrete invalid requests. -/
theorem c1_invalid_descriptor_short_circuit_witness :
    handleRequest env0 badUrl w0 =
      (.ok (getErrorResponse typeErrorMsg), w0, [.edgeMatch badUrl.href]) ∧
    handleRequest env0 ⟨"https://h/plugins", "/plugins", none, none⟩ w0 =
      (.ok (getErrorResponse vendorErrorMsg), w0,
       [.edgeMatch "https://h/plugins"]) ∧
    handleRequest env0 ⟨"https://h/plugins/acme", "/plugins/acme", none, none⟩ w0 =
      (.ok (getErrorResponse packageErrorMsg), w0,
       [.edgeMatch "https://h/plugins/acme"]) :=
  ⟨(c1_invalid_descriptor_short_circuit env0 badUrl w0 rfl).1 (by decide),
   (c1_invalid_descriptor_short_circuit env0 _ w0 rfl).2.1 (by decide) (by decide),
   (c1_invalid_descriptor_short_circuit env0 _ w0 rfl).2.2.1 (by decide) (by decide) (by decide)⟩

end WpRelApi
